import Mathlib

/-!
# Windows run loop and window shim: embedding and verified properties

Shallow embedding of `windows/run_loop.{h,cpp}` and of the inline part of
`windows/win32_window.h`.

The Win32 and engine entry points called by the code are external.  They are
modelled over an explicit `World` (the calling thread's message queue plus a log
of every external call, in call order) and an `Env` that fixes what the outside
delivers: the successive readings of the steady clock and the messages that
become pending while the thread sits in each wait.

The message loop looks at the queue only through `PeekMessage`, one message at
a time, so the batch of an iteration is the finite sequence of messages its
drain can be handed.  A message that a window procedure or an engine posts is
delivered like any other: it counts among the arrivals of the wait before the
drain that meets it.  Window procedures and engines are otherwise opaque, and a
call to them is recorded in the log and has no other effect here.

Time points and durations are signed 64-bit counts of nanoseconds, held in
`Int`.  The subtraction of line 17 is reduced to the signed 64-bit range
(`wrap_int64`), and the narrowing conversion `static_cast<DWORD>` is an explicit
`% 2^32`.  A reading of the steady clock is a non-negative 64-bit count; the
statements on the value of the wait duration carry that range as a hypothesis,
and outside it the difference wraps.
-/

/-! ## Data model -/

/-- Win32 identifier of the quit message. -/
def WM_QUIT : Nat := 0x0012

/-- The Win32 `MSG` record: window, message identifier and the two parameter
words, read as integers. -/
structure MSG where
  hwnd : Nat
  message : Nat
  wParam : Int
  lParam : Int
  deriving DecidableEq, Repr

/-- The closure pushed by `RegisterFlutterInstance`
(`[flutter_instance]() { ... }`, run_loop.cpp lines 42-46): it is determined by
the engine pointer it captures; `0` is `nullptr`. -/
structure TaskRunner where
  flutter_instance : Nat
  deriving DecidableEq, Repr

/-- A call that leaves the code under study, with its argument or result. -/
inductive Event where
  /-- The call `TimePoint::clock::now()`, which returned `t`. -/
  | now (t : Int)
  /-- The call `MsgWaitForMultipleObjects(0, nullptr, FALSE, dwMilliseconds, QS_ALLINPUT)`. -/
  | MsgWaitForMultipleObjects (dwMilliseconds : Nat)
  /-- The call `PeekMessage(&message, nullptr, 0, 0, PM_REMOVE)`; `none` when it returned
  `FALSE`, `some m` when it removed `m` from the queue. -/
  | PeekMessage (removed : Option MSG)
  /-- The call `TranslateMessage(&message)`. -/
  | TranslateMessage (m : MSG)
  /-- The call `DispatchMessage(&message)`. -/
  | DispatchMessage (m : MSG)
  /-- The call `task()` of run_loop.cpp line 35 on an entry of `task_runners_`. -/
  | task (t : TaskRunner)
  /-- The call `flutter_instance->ProcessMessages()` on the engine at this address. -/
  | ProcessMessages (engine : Nat)
  /-- The call `PostQuitMessage(nExitCode)`. -/
  | PostQuitMessage (nExitCode : Int)
  deriving DecidableEq, Repr

/-- What the outside delivers: `clock k` is the `k`-th reading of the steady
clock, `arrivals k` the messages that become pending during the `k`-th wait (both
counted from `0`). -/
structure Env where
  clock : Nat → Int
  arrivals : Nat → List MSG

/-- The state outside the `RunLoop` object. -/
structure World where
  /-- The calling thread's message queue, oldest message first. -/
  queue : List MSG
  /-- Number of clock readings taken so far. -/
  reads : Nat
  /-- Number of waits performed so far. -/
  waits : Nat
  /-- Every external call made so far, oldest first. -/
  trace : List Event
  deriving DecidableEq, Repr

/-- How a call can fail. -/
inductive Fault where
  /-- A member function was called through a null pointer. -/
  | nullDereference
  deriving DecidableEq, Repr

/-- The `RunLoop` object: its only data member (run_loop.h line 32). -/
structure RunLoop where
  task_runners_ : List TaskRunner
  deriving DecidableEq, Repr

/-- The local variables of `Run` that the message loop assigns. -/
structure Locals where
  keep_running : Bool
  has_messages : Bool
  deriving DecidableEq, Repr

/-! ## External calls -/

/-- Append one event to the log. -/
def World.log (w : World) (e : Event) : World :=
  { w with trace := w.trace ++ [e] }

/-- The call `TimePoint::clock::now()`: the next reading of the steady clock. -/
def clockNow (env : Env) (w : World) : Int × World :=
  (env.clock w.reads,
   { w with reads := w.reads + 1, trace := w.trace ++ [Event.now (env.clock w.reads)] })

/-- The call `MsgWaitForMultipleObjects(0, nullptr, FALSE, dwMilliseconds, QS_ALLINPUT)`:
when it returns, the messages that arrived meanwhile are pending behind those
already queued. -/
def MsgWaitForMultipleObjects (env : Env) (dwMilliseconds : Nat) (w : World) : World :=
  { w with
    queue := w.queue ++ env.arrivals w.waits,
    waits := w.waits + 1,
    trace := w.trace ++ [Event.MsgWaitForMultipleObjects dwMilliseconds] }

/-- The call `PeekMessage(&message, nullptr, 0, 0, PM_REMOVE)`: removes and returns the
oldest pending message, or reports that none is pending. -/
def PeekMessage (w : World) : Option MSG × World :=
  match w.queue with
  | [] => (none, w.log (Event.PeekMessage none))
  | m :: rest =>
    (some m, { w with queue := rest, trace := w.trace ++ [Event.PeekMessage (some m)] })

/-- The call `TranslateMessage(&message)`. -/
def TranslateMessage (m : MSG) (w : World) : World :=
  w.log (Event.TranslateMessage m)

/-- The call `DispatchMessage(&message)`: hands the message to its window procedure. -/
def DispatchMessage (m : MSG) (w : World) : World :=
  w.log (Event.DispatchMessage m)

/-- The call `PostQuitMessage(nExitCode)`: posts a `WM_QUIT` message carrying the exit
code to the calling thread's queue. -/
def PostQuitMessage (nExitCode : Int) (w : World) : World :=
  { w with
    queue := w.queue ++ [{ hwnd := 0, message := WM_QUIT, wParam := nExitCode, lParam := 0 }],
    trace := w.trace ++ [Event.PostQuitMessage nExitCode] }

/-- The call `engine->ProcessMessages()`: a member call, which needs a non-null object. -/
def ProcessMessages (engine : Nat) (w : World) : Except Fault World :=
  if engine = 0 then Except.error Fault.nullDereference
  else Except.ok (w.log (Event.ProcessMessages engine))

/-! ## `run_loop.cpp` -/

/-- The function `std::max(a, b)`: `(a < b) ? b : a`. -/
def std_max (a b : Int) : Int :=
  if a < b then b else a

/-- The conversion `static_cast<DWORD>(x)`: reduction modulo `2^32`. -/
def DWORD_cast (x : Int) : Nat :=
  (x % 4294967296).toNat

/-- The value a signed 64-bit integer holds after an operation whose exact
result is `x`: `x` reduced to the range from `-2^63` to `2^63 - 1`. -/
def wrap_int64 (x : Int) : Int :=
  (x + 9223372036854775808) % 18446744073709551616 - 9223372036854775808

/-- Lines 15-17: `std::max(nanoseconds(0), next_flutter_event_time - now)`, the
difference being one of signed 64-bit nanosecond counts. -/
def wait_duration (next_flutter_event_time now : Int) : Int :=
  std_max 0 (wrap_int64 (next_flutter_event_time - now))

/-- Line 19: `static_cast<DWORD>(wait_duration.count() / 1000000)`; the division
of C++ signed integers truncates toward zero. -/
def wait_timeout (duration : Int) : Nat :=
  DWORD_cast (Int.tdiv duration 1000000)

/-- The body of the lambda of lines 42-46. -/
def TaskRunner.call (t : TaskRunner) (w : World) : Except Fault World :=
  if t.flutter_instance ≠ 0 then
    ProcessMessages t.flutter_instance w
  else
    Except.ok w

/-- Lines 34-36: `for (const auto& task : task_runners_) { task(); }`. -/
def runTasks : List TaskRunner → World → Except Fault World
  | [], w => Except.ok w
  | task :: rest, w =>
    match task.call (w.log (Event.task task)) with
    | Except.error f => Except.error f
    | Except.ok w1 => runTasks rest w1

/-- Lines 24-32: `while (::PeekMessage(...)) { ... }`; `n` bounds the number of
`PeekMessage` calls. -/
def drainLoop : Nat → Locals → World → Locals × World
  | 0, L, w => (L, w)
  | n + 1, L, w =>
    match PeekMessage w with
    | (none, w1) => (L, w1)
    | (some message, w1) =>
      let L1 : Locals := { L with has_messages := true }
      if message.message = WM_QUIT then
        ({ L1 with keep_running := false }, w1)
      else
        drainLoop n L1 (DispatchMessage message (TranslateMessage message w1))

/-- Lines 21-32.  Every `PeekMessage` call that returns a message removes it and
nothing in the loop posts one, so one call more than there are pending messages
is enough for the loop to finish. -/
def drain (L : Locals) (w : World) : Locals × World :=
  drainLoop (w.queue.length + 1) { L with has_messages := false } w

namespace RunLoop

/-- Lines 15-36: one execution of the body of `while (keep_running)`.  Returns
the value of `keep_running` at the end of the body. -/
def iteration (env : Env) (self : RunLoop) (next_flutter_event_time : Int) (w : World) :
    Except Fault (Bool × World) :=
  let r := clockNow env w
  let d := wait_duration next_flutter_event_time r.1
  let w2 := MsgWaitForMultipleObjects env (wait_timeout d) r.2
  let s := drain { keep_running := true, has_messages := false } w2
  match runTasks self.task_runners_ s.2 with
  | Except.error f => Except.error f
  | Except.ok w4 => Except.ok (s.1.keep_running, w4)

/-- Lines 14-37: `while (keep_running) { ... }`, entered with `keep_running`
set, for at most `n` iterations.  The flag returned is `keep_running`: `false`
when the loop has exited, `true` when `n` iterations were made and the loop goes
on. -/
def whileLoop (env : Env) (self : RunLoop) (next_flutter_event_time : Int) :
    Nat → World → Except Fault (Bool × World)
  | 0, w => Except.ok (true, w)
  | n + 1, w =>
    match iteration env self next_flutter_event_time w with
    | Except.error f => Except.error f
    | Except.ok (keep_running, w1) =>
      if keep_running then whileLoop env self next_flutter_event_time n w1
      else Except.ok (false, w1)

/-- The outcome of running `Run` for a bounded number of iterations. -/
structure Outcome where
  /-- Whether `Run` has returned; `false` when the iterations allowed were
  made and the loop goes on. -/
  returned : Bool
  /-- The `RunLoop` object afterwards. -/
  self : RunLoop
  world : World
  deriving DecidableEq, Repr

/-- Lines 11-38: `void RunLoop::Run()`, for at most `fuel` iterations. -/
def Run (env : Env) (fuel : Nat) (self : RunLoop) (w : World) : Except Fault Outcome :=
  let r := clockNow env w
  let next_flutter_event_time := r.1
  match whileLoop env self next_flutter_event_time fuel r.2 with
  | Except.error f => Except.error f
  | Except.ok (keep_running, w1) =>
    Except.ok { returned := !keep_running, self := self, world := w1 }

/-- Lines 40-47: `void RunLoop::RegisterFlutterInstance(FlutterEngine*)`. -/
def RegisterFlutterInstance (self : RunLoop) (flutter_instance : Nat) : RunLoop :=
  { task_runners_ := self.task_runners_ ++ [{ flutter_instance := flutter_instance }] }

/-- Lines 49-51: `void RunLoop::Stop()`. -/
def Stop (self : RunLoop) (w : World) : RunLoop × World :=
  (self, PostQuitMessage 0 w)

end RunLoop

/-! ## `win32_window.h` -/

/-- The data members of `Win32Window` (win32_window.h lines 93-98).  `F` is the
type of callables a `std::function<void()>` can hold; `none` is the empty
function. -/
structure Win32Window (F : Type) where
  quit_on_close_ : Bool
  window_handle_ : Nat
  child_content_ : Nat
  quit_handler_ : Option F

namespace Win32Window

/-- The default member initialisers of lines 93-98. -/
def init (F : Type) : Win32Window F :=
  { quit_on_close_ := false, window_handle_ := 0, child_content_ := 0, quit_handler_ := none }

/-- Lines 45-48: `void SetQuitHandler(std::function<void()> quit_handler)`. -/
def SetQuitHandler {F : Type} (self : Win32Window F) (quit_handler : Option F) :
    Win32Window F :=
  { self with quit_handler_ := quit_handler }

end Win32Window

/-! ## Vocabulary of the statements -/

/-- Whether a message is a quit message. -/
def isQuit (m : MSG) : Bool :=
  decide (m.message = WM_QUIT)

/-- The messages of a batch that precede its first quit message (all of them
when it holds none). -/
def beforeQuit (batch : List MSG) : List MSG :=
  batch.takeWhile (fun m => !isQuit m)

/-- The messages of a batch that follow its first quit message. -/
def afterQuit (batch : List MSG) : List MSG :=
  (batch.dropWhile (fun m => !isQuit m)).drop 1

/-- The calls one drain makes for a message it handles: it is removed from the
queue, translated, then dispatched. -/
def handled (m : MSG) : List Event :=
  [Event.PeekMessage (some m), Event.TranslateMessage m, Event.DispatchMessage m]

/-- The calls one drain makes on a batch: the messages before the first quit
message are handled in queue order, then one last `PeekMessage` returns the quit
message, or nothing when the batch holds none. -/
def drainEvents (batch : List MSG) : List Event :=
  (beforeQuit batch).flatMap handled ++ [Event.PeekMessage (batch.find? isQuit)]

/-- The calls made when one callback is invoked: the invocation itself, then the
engine call when the captured pointer is not null. -/
def invoked (t : TaskRunner) : List Event :=
  Event.task t ::
    (if t.flutter_instance = 0 then [] else [Event.ProcessMessages t.flutter_instance])

/-- The batch the drain of the `i`-th coming iteration (counted from `0`) sees,
as long as no earlier one held a quit message: what is queued already together
with what arrives during the first wait, then what arrives during each later
wait. -/
def batch (env : Env) (w : World) (i : Nat) : List MSG :=
  (if i = 0 then w.queue else []) ++ env.arrivals (w.waits + i)

/-- The calls of one iteration whose clock reading is `t` and whose drain sees
`b`: the reading, the wait, the drain, then every callback in order. -/
def iterationEvents (self : RunLoop) (next_flutter_event_time t : Int) (b : List MSG) :
    List Event :=
  [Event.now t,
   Event.MsgWaitForMultipleObjects (wait_timeout (wait_duration next_flutter_event_time t))]
  ++ drainEvents b ++ self.task_runners_.flatMap invoked

/-- The calls of the first `n` coming iterations, none of which stops the loop
before the last. -/
def loopEvents (env : Env) (self : RunLoop) (next_flutter_event_time : Int) (w : World)
    (n : Nat) : List Event :=
  (List.range n).flatMap fun i =>
    iterationEvents self next_flutter_event_time (env.clock (w.reads + i)) (batch env w i)

/-- The calls of `Run` up to the end of its first `n` iterations: the clock
reading taken before the loop, which fixes `next_flutter_event_time`, then the
calls of each iteration. -/
def runEvents (env : Env) (self : RunLoop) (w : World) (n : Nat) : List Event :=
  Event.now (env.clock w.reads) ::
    (List.range n).flatMap fun i =>
      iterationEvents self (env.clock w.reads) (env.clock (w.reads + 1 + i)) (batch env w i)

/-! ## Reading a log -/

/-- The callbacks invoked, in order. -/
def invocations (evs : List Event) : List TaskRunner :=
  evs.filterMap fun e => match e with
    | Event.task t => some t
    | _ => none

/-- The engines whose `ProcessMessages` was called, in order. -/
def engineCalls (evs : List Event) : List Nat :=
  evs.filterMap fun e => match e with
    | Event.ProcessMessages p => some p
    | _ => none

/-- The messages removed from the queue, in order. -/
def removed (evs : List Event) : List MSG :=
  evs.filterMap fun e => match e with
    | Event.PeekMessage (some m) => some m
    | _ => none

/-- The messages translated, in order. -/
def translated (evs : List Event) : List MSG :=
  evs.filterMap fun e => match e with
    | Event.TranslateMessage m => some m
    | _ => none

/-- The messages dispatched, in order. -/
def dispatched (evs : List Event) : List MSG :=
  evs.filterMap fun e => match e with
    | Event.DispatchMessage m => some m
    | _ => none

/-- The timeouts of the waits, in order. -/
def waitTimeouts (evs : List Event) : List Nat :=
  evs.filterMap fun e => match e with
    | Event.MsgWaitForMultipleObjects t => some t
    | _ => none

/-! ## Concrete inputs -/

/-- The message `PostQuitMessage(0)` posts. -/
def stopMessage : MSG :=
  { hwnd := 0, message := WM_QUIT, wParam := 0, lParam := 0 }

/-- A quit message posted by someone else, with exit code `7`. -/
def foreignQuit : MSG :=
  { hwnd := 0, message := WM_QUIT, wParam := 7, lParam := 0 }

/-- An ordinary message (`WM_PAINT`) for window `1`. -/
def paintMessage : MSG :=
  { hwnd := 1, message := 15, wParam := 0, lParam := 0 }

/-- An outside that delivers no message; the clock advances by a microsecond a
reading for its first second and then stands still. -/
def quietEnv : Env :=
  { clock := fun k => min (1000 * k) 1000000000, arrivals := fun _ => [] }

/-- An outside that delivers a paint message during every wait, and during the
third wait a quit message between two paint messages. -/
def busyEnv : Env :=
  { clock := fun k => min (1000 * k) 1000000000,
    arrivals := fun k => if k = 2 then [paintMessage, stopMessage, paintMessage]
      else [paintMessage] }

/-- A run loop with three callbacks: an engine registered twice and a null one. -/
def exampleLoop : RunLoop :=
  { task_runners_ := [{ flutter_instance := 7 }, { flutter_instance := 0 },
      { flutter_instance := 7 }] }

/-- The state before anything has happened. -/
def emptyWorld : World :=
  { queue := [], reads := 0, waits := 0, trace := [] }

/-! ## Lemmas on the loops -/

theorem drainLoop_eq (n : Nat) : ∀ (L : Locals) (w : World), w.queue.length < n →
    drainLoop n L w =
      ({ keep_running := L.keep_running && !w.queue.any isQuit,
         has_messages := L.has_messages || !w.queue.isEmpty },
       { w with queue := afterQuit w.queue, trace := w.trace ++ drainEvents w.queue }) := by
  induction n with
  | zero => intro L w h; omega
  | succ n ih =>
    intro L w h
    obtain ⟨q, r, k, tr⟩ := w
    cases q with
    | nil =>
      simp [drainLoop, PeekMessage, World.log, afterQuit, drainEvents, beforeQuit]
    | cons m rest =>
      simp only [List.length_cons, Nat.add_lt_add_iff_right] at h
      by_cases hm : m.message = WM_QUIT
      · simp [drainLoop, PeekMessage, afterQuit, drainEvents, beforeQuit, isQuit, hm]
      · have := ih { L with has_messages := true }
          (DispatchMessage m (TranslateMessage m
            { queue := rest, reads := r, waits := k, trace := tr ++ [Event.PeekMessage (some m)] }))
          (by simpa [DispatchMessage, TranslateMessage, World.log] using h)
        simp [drainLoop, PeekMessage, hm, this]
        simp [DispatchMessage, TranslateMessage, World.log, afterQuit, drainEvents, beforeQuit,
          isQuit, hm, handled]

theorem runTasks_eq (ts : List TaskRunner) : ∀ w : World,
    runTasks ts w = Except.ok { w with trace := w.trace ++ ts.flatMap invoked } := by
  induction ts with
  | nil => intro w; simp [runTasks]
  | cons t rest ih =>
    intro w
    by_cases ht : t.flutter_instance = 0
    · simp [runTasks, TaskRunner.call, ht, ih, World.log, invoked]
    · simp [runTasks, TaskRunner.call, ProcessMessages, ht, ih, World.log, invoked]

theorem drain_eq (L : Locals) (w : World) :
    drain L w =
      ({ keep_running := L.keep_running && !w.queue.any isQuit,
         has_messages := !w.queue.isEmpty },
       { w with queue := afterQuit w.queue, trace := w.trace ++ drainEvents w.queue }) := by
  unfold drain
  rw [drainLoop_eq _ _ _ (Nat.lt_succ_self _)]
  simp

theorem iteration_eq (env : Env) (self : RunLoop) (next : Int) (w : World) :
    RunLoop.iteration env self next w =
      Except.ok (!(batch env w 0).any isQuit,
        { queue := afterQuit (batch env w 0),
          reads := w.reads + 1,
          waits := w.waits + 1,
          trace := w.trace ++ iterationEvents self next (env.clock w.reads) (batch env w 0) }) := by
  simp [RunLoop.iteration, clockNow, MsgWaitForMultipleObjects, drain_eq, runTasks_eq, batch,
    iterationEvents, List.append_assoc]

theorem afterQuit_eq_nil {b : List MSG} (h : b.any isQuit = false) : afterQuit b = [] := by
  have : b.dropWhile (fun m => !isQuit m) = [] := by
    rw [List.dropWhile_eq_nil_iff]
    intro m hm
    have := (List.any_eq_false.mp h) m hm
    simpa using this
  simp [afterQuit, this]

theorem loopEvents_succ (env : Env) (self : RunLoop) (next : Int) (w w1 : World) (n : Nat)
    (hq : w1.queue = []) (hr : w1.reads = w.reads + 1) (hw : w1.waits = w.waits + 1) :
    loopEvents env self next w (n + 1) =
      iterationEvents self next (env.clock w.reads) (batch env w 0) ++
        loopEvents env self next w1 n := by
  unfold loopEvents
  rw [List.range_succ_eq_map, List.flatMap_cons, List.flatMap_map]
  congr 1
  apply List.flatMap_congr
  intro i _
  have h1 : w1.reads + i = w.reads + (i + 1) := by omega
  have h2 : w1.waits + i = w.waits + (i + 1) := by omega
  simp [batch, hq, h1, h2]

theorem batch_succ (env : Env) (w w1 : World) (hq : w1.queue = [])
    (hw : w1.waits = w.waits + 1) (i : Nat) : batch env w1 i = batch env w (i + 1) := by
  have e : w.waits + 1 + i = w.waits + (i + 1) := by omega
  unfold batch
  rw [hq, hw, e]
  simp

theorem loopEvents_one (env : Env) (self : RunLoop) (next : Int) (w : World) :
    loopEvents env self next w 1 =
      iterationEvents self next (env.clock w.reads) (batch env w 0) := by
  simp [loopEvents, List.range_succ_eq_map]

/-- While no batch holds a quit message the loop goes on: after `n` iterations
`keep_running` is still set, the queue is drained and the log holds the calls of
those `n` iterations. -/
theorem whileLoop_running (env : Env) (self : RunLoop) (next : Int) (n : Nat) :
    ∀ w : World, (∀ i, i < n → (batch env w i).any isQuit = false) →
      RunLoop.whileLoop env self next n w =
        Except.ok (true,
          { queue := if n = 0 then w.queue else [],
            reads := w.reads + n,
            waits := w.waits + n,
            trace := w.trace ++ loopEvents env self next w n }) := by
  induction n with
  | zero => intro w _; simp [RunLoop.whileLoop, loopEvents]
  | succ n ih =>
    intro w h
    have h0 := h 0 (Nat.succ_pos n)
    rw [RunLoop.whileLoop, iteration_eq]
    simp only [h0, Bool.not_false, if_true]
    generalize hw1 : World.mk (afterQuit (batch env w 0)) (w.reads + 1) (w.waits + 1)
      (w.trace ++ iterationEvents self next (env.clock w.reads) (batch env w 0)) = w1
    have hq : w1.queue = [] := by rw [← hw1]; exact afterQuit_eq_nil h0
    have hr : w1.reads = w.reads + 1 := by rw [← hw1]
    have hw : w1.waits = w.waits + 1 := by rw [← hw1]
    have ht : w1.trace =
        w.trace ++ iterationEvents self next (env.clock w.reads) (batch env w 0) := by
      rw [← hw1]
    have hb := batch_succ env w w1 hq hw
    rw [ih w1 (fun i hi => by rw [hb]; exact h (i + 1) (Nat.succ_lt_succ hi)),
      loopEvents_succ env self next w w1 n hq hr hw]
    have e1 : w.reads + 1 + n = w.reads + (n + 1) := by omega
    have e2 : w.waits + 1 + n = w.waits + (n + 1) := by omega
    simp [hq, hr, hw, ht, e1, e2, List.append_assoc]

/-- When the batch of iteration `k` is the first to hold a quit message, the
loop exits at the end of iteration `k`, whatever larger number of iterations is
allowed. -/
theorem whileLoop_returns (env : Env) (self : RunLoop) (next : Int) (k : Nat) :
    ∀ (fuel : Nat) (w : World), k < fuel →
      (∀ i, i < k → (batch env w i).any isQuit = false) →
      (batch env w k).any isQuit = true →
      RunLoop.whileLoop env self next fuel w =
        Except.ok (false,
          { queue := afterQuit (batch env w k),
            reads := w.reads + (k + 1),
            waits := w.waits + (k + 1),
            trace := w.trace ++ loopEvents env self next w (k + 1) }) := by
  induction k with
  | zero =>
    intro fuel w hf _ hk
    obtain ⟨n, rfl⟩ : ∃ n, fuel = n + 1 := ⟨fuel - 1, by omega⟩
    rw [RunLoop.whileLoop, iteration_eq, loopEvents_one]
    simp [hk]
  | succ k ih =>
    intro fuel w hf h hk
    obtain ⟨n, rfl⟩ : ∃ n, fuel = n + 1 := ⟨fuel - 1, by omega⟩
    have h0 := h 0 (Nat.succ_pos k)
    rw [RunLoop.whileLoop, iteration_eq]
    simp only [h0, Bool.not_false, if_true]
    generalize hw1 : World.mk (afterQuit (batch env w 0)) (w.reads + 1) (w.waits + 1)
      (w.trace ++ iterationEvents self next (env.clock w.reads) (batch env w 0)) = w1
    have hq : w1.queue = [] := by rw [← hw1]; exact afterQuit_eq_nil h0
    have hr : w1.reads = w.reads + 1 := by rw [← hw1]
    have hw : w1.waits = w.waits + 1 := by rw [← hw1]
    have ht : w1.trace =
        w.trace ++ iterationEvents self next (env.clock w.reads) (batch env w 0) := by
      rw [← hw1]
    have hb := batch_succ env w w1 hq hw
    rw [ih n w1 (by omega) (fun i hi => by rw [hb]; exact h (i + 1) (Nat.succ_lt_succ hi))
        (by rw [hb]; exact hk),
      loopEvents_succ env self next w w1 (k + 1) hq hr hw, hb]
    have e1 : w.reads + 1 + (k + 1) = w.reads + (k + 1 + 1) := by omega
    have e2 : w.waits + 1 + (k + 1) = w.waits + (k + 1 + 1) := by omega
    simp [hr, hw, ht, e1, e2, List.append_assoc]

theorem loopEvents_clockNow (env : Env) (self : RunLoop) (w : World) (n : Nat) :
    [Event.now (env.clock w.reads)] ++
        loopEvents env self (env.clock w.reads) (clockNow env w).2 n =
      runEvents env self w n := by
  simp [loopEvents, runEvents, clockNow, batch]

theorem batch_clockNow (env : Env) (w : World) (i : Nat) :
    batch env (clockNow env w).2 i = batch env w i := by
  simp [batch, clockNow]

/-- While no batch holds a quit message `Run` has not returned: after `n`
iterations the loop goes on. -/
theorem Run_running (env : Env) (self : RunLoop) (w : World) (n : Nat)
    (h : ∀ i, i < n → (batch env w i).any isQuit = false) :
    RunLoop.Run env n self w =
      Except.ok
        { returned := false,
          self := self,
          world :=
            { queue := if n = 0 then w.queue else [],
              reads := w.reads + 1 + n,
              waits := w.waits + n,
              trace := w.trace ++ runEvents env self w n } } := by
  have e := whileLoop_running env self (clockNow env w).1 n (clockNow env w).2
    (fun i hi => by rw [batch_clockNow]; exact h i hi)
  simp only [RunLoop.Run, e, Bool.not_true]
  rw [← loopEvents_clockNow]
  simp [clockNow, List.append_assoc]

/-- When the batch of iteration `k` (counted from `0`) is the first to hold a
quit message, `Run` returns at the end of that iteration. -/
theorem Run_returns (env : Env) (self : RunLoop) (w : World) (k fuel : Nat) (hf : k < fuel)
    (h : ∀ i, i < k → (batch env w i).any isQuit = false)
    (hk : (batch env w k).any isQuit = true) :
    RunLoop.Run env fuel self w =
      Except.ok
        { returned := true,
          self := self,
          world :=
            { queue := afterQuit (batch env w k),
              reads := w.reads + 1 + (k + 1),
              waits := w.waits + (k + 1),
              trace := w.trace ++ runEvents env self w (k + 1) } } := by
  have e := whileLoop_returns env self (clockNow env w).1 k fuel (clockNow env w).2 hf
    (fun i hi => by rw [batch_clockNow]; exact h i hi) (by rw [batch_clockNow]; exact hk)
  simp only [RunLoop.Run, e, Bool.not_false]
  rw [← loopEvents_clockNow, batch_clockNow]
  simp [clockNow, List.append_assoc]

/-- Whatever the outside delivers, `Run` never fails: within any number of
iterations allowed it has made some `n` of them, and it is still running only
when it has made them all. -/
theorem Run_total (env : Env) (self : RunLoop) (w : World) (fuel : Nat) :
    ∃ (n : Nat) (ret : Bool) (q : List MSG), n ≤ fuel ∧ (ret = false → n = fuel) ∧
      RunLoop.Run env fuel self w =
        Except.ok
          { returned := ret,
            self := self,
            world :=
              { queue := q,
                reads := w.reads + 1 + n,
                waits := w.waits + n,
                trace := w.trace ++ runEvents env self w n } } := by
  by_cases h : ∃ k, k < fuel ∧ (batch env w k).any isQuit = true
  · have hlt := (Nat.find_spec h).1
    have hq := (Nat.find_spec h).2
    refine ⟨Nat.find h + 1, true, afterQuit (batch env w (Nat.find h)), hlt, by simp, ?_⟩
    apply Run_returns env self w (Nat.find h) fuel hlt _ hq
    intro i hi
    have := Nat.find_min h hi
    simp only [not_and, Bool.not_eq_true] at this
    exact this (Nat.lt_trans hi hlt)
  · refine ⟨fuel, false, if fuel = 0 then w.queue else [], Nat.le_refl _, fun _ => rfl, ?_⟩
    apply Run_running
    intro i hi
    simp only [not_exists, not_and, Bool.not_eq_true] at h
    exact h i hi

/-- Within any number of iterations allowed, `Run` has returned exactly when one
of the batches drained so far held a quit message. -/
theorem Run_returned_iff (env : Env) (self : RunLoop) (w : World) (fuel : Nat) :
    ∃ r : RunLoop.Outcome, RunLoop.Run env fuel self w = Except.ok r ∧
      (r.returned = true ↔ ∃ i, i < fuel ∧ (batch env w i).any isQuit = true) := by
  by_cases h : ∃ k, k < fuel ∧ (batch env w k).any isQuit = true
  · have hlt := (Nat.find_spec h).1
    have hq := (Nat.find_spec h).2
    refine ⟨_, Run_returns env self w (Nat.find h) fuel hlt ?_ hq, ?_⟩
    · intro i hi
      have := Nat.find_min h hi
      simp only [not_and, Bool.not_eq_true] at this
      exact this (Nat.lt_trans hi hlt)
    · simp only [true_iff]
      exact h
  · refine ⟨_, Run_running env self w fuel ?_, ?_⟩
    · intro i hi
      simp only [not_exists, not_and, Bool.not_eq_true] at h
      exact h i hi
    · simp only [Bool.false_eq_true, false_iff]
      exact h

theorem invocations_invoked (ts : List TaskRunner) :
    invocations (ts.flatMap invoked) = ts := by
  induction ts with
  | nil => rfl
  | cons t rest ih =>
    unfold invocations at ih ⊢
    rw [List.flatMap_cons, List.filterMap_append, ih]
    by_cases ht : t.flutter_instance = 0 <;> simp [invoked, ht]

theorem engineCalls_invoked (ts : List TaskRunner) :
    engineCalls (ts.flatMap invoked) =
      (ts.map fun t => t.flutter_instance).filter fun p => decide (p ≠ 0) := by
  induction ts with
  | nil => rfl
  | cons t rest ih =>
    unfold engineCalls at ih ⊢
    rw [List.flatMap_cons, List.filterMap_append, ih]
    by_cases ht : t.flutter_instance = 0 <;> simp [invoked, ht]

theorem invocations_drainEvents (b : List MSG) : invocations (drainEvents b) = [] := by
  simp [invocations, drainEvents, List.filterMap_flatMap, handled]

theorem translated_drainEvents (b : List MSG) : translated (drainEvents b) = beforeQuit b := by
  unfold translated drainEvents
  rw [List.filterMap_append, List.filterMap_flatMap]
  generalize beforeQuit b = l
  induction l with
  | nil => simp
  | cons m rest _ => simp [handled]

theorem dispatched_drainEvents (b : List MSG) : dispatched (drainEvents b) = beforeQuit b := by
  unfold dispatched drainEvents
  rw [List.filterMap_append, List.filterMap_flatMap]
  generalize beforeQuit b = l
  induction l with
  | nil => simp
  | cons m rest _ => simp [handled]

theorem removed_drainEvents (b : List MSG) :
    removed (drainEvents b) = beforeQuit b ++ (b.find? isQuit).toList := by
  unfold removed drainEvents
  rw [List.filterMap_append, List.filterMap_flatMap]
  congr 1
  · generalize beforeQuit b = l
    induction l with
    | nil => simp
    | cons m rest ih => simp [handled]
  · cases b.find? isQuit <;> simp

/-- A batch splits into the messages before its first quit message, that
message when there is one, and the messages after it. -/
theorem batch_split (b : List MSG) :
    b = beforeQuit b ++ (b.find? isQuit).toList ++ afterQuit b := by
  induction b with
  | nil => simp [beforeQuit, afterQuit]
  | cons m rest ih =>
    by_cases hm : isQuit m = true
    · simp [beforeQuit, afterQuit, hm]
    · simp only [Bool.not_eq_true] at hm
      simp only [beforeQuit, afterQuit] at ih
      simpa [beforeQuit, afterQuit, hm] using ih

theorem beforeQuit_eq_self {b : List MSG} (h : b.any isQuit = false) : beforeQuit b = b := by
  unfold beforeQuit
  rw [List.takeWhile_eq_self_iff]
  intro m hm
  simpa using (List.any_eq_false.mp h) m hm

theorem find_quit_eq_none {b : List MSG} (h : b.any isQuit = false) : b.find? isQuit = none := by
  rw [List.find?_eq_none]
  intro m hm
  simpa using (List.any_eq_false.mp h) m hm

theorem invocations_iterationEvents (self : RunLoop) (next t : Int) (b : List MSG) :
    invocations (iterationEvents self next t b) = self.task_runners_ := by
  have h1 := invocations_drainEvents b
  have h2 := invocations_invoked self.task_runners_
  unfold invocations at h1 h2 ⊢
  simp [iterationEvents, List.filterMap_append, h1, h2]

theorem invocations_runEvents (env : Env) (self : RunLoop) (w : World) (n : Nat) :
    invocations (runEvents env self w n) = (List.replicate n self.task_runners_).flatten := by
  have key : ∀ l : List Nat,
      invocations (l.flatMap fun i =>
        iterationEvents self (env.clock w.reads) (env.clock (w.reads + 1 + i)) (batch env w i))
      = (List.replicate l.length self.task_runners_).flatten := by
    intro l
    induction l with
    | nil => rfl
    | cons i rest ih =>
      have h := invocations_iterationEvents self (env.clock w.reads)
        (env.clock (w.reads + 1 + i)) (batch env w i)
      unfold invocations at ih h ⊢
      rw [List.flatMap_cons, List.filterMap_append, ih, h]
      simp [List.replicate_succ]
  have := key (List.range n)
  unfold invocations at this ⊢
  simpa [runEvents] using this

theorem waitTimeouts_iterationEvents (self : RunLoop) (next t : Int) (b : List MSG) :
    waitTimeouts (iterationEvents self next t b) = [wait_timeout (wait_duration next t)] := by
  have h1 : waitTimeouts (drainEvents b) = [] := by
    simp [waitTimeouts, drainEvents, List.filterMap_flatMap, handled]
  have h2 : waitTimeouts (self.task_runners_.flatMap invoked) = [] := by
    unfold waitTimeouts
    rw [List.filterMap_flatMap]
    simp only [List.flatMap_eq_nil_iff]
    intro t _
    by_cases ht : t.flutter_instance = 0 <;> simp [invoked, ht]
  unfold waitTimeouts at h1 h2 ⊢
  simp [iterationEvents, List.filterMap_append, h1, h2]

theorem waitTimeouts_runEvents (env : Env) (self : RunLoop) (w : World) (n : Nat) :
    waitTimeouts (runEvents env self w n) =
      (List.range n).map fun i =>
        wait_timeout (wait_duration (env.clock w.reads) (env.clock (w.reads + 1 + i))) := by
  have key : ∀ l : List Nat,
      waitTimeouts (l.flatMap fun i =>
        iterationEvents self (env.clock w.reads) (env.clock (w.reads + 1 + i)) (batch env w i))
      = l.map fun i =>
        wait_timeout (wait_duration (env.clock w.reads) (env.clock (w.reads + 1 + i))) := by
    intro l
    induction l with
    | nil => rfl
    | cons i rest ih =>
      have h := waitTimeouts_iterationEvents self (env.clock w.reads)
        (env.clock (w.reads + 1 + i)) (batch env w i)
      unfold waitTimeouts at ih h ⊢
      rw [List.flatMap_cons, List.filterMap_append, ih, h]
      simp
  have := key (List.range n)
  unfold waitTimeouts at this ⊢
  simpa [runEvents] using this

theorem PostQuitMessage_zero (w : World) :
    PostQuitMessage 0 w =
      { w with queue := w.queue ++ [stopMessage],
               trace := w.trace ++ [Event.PostQuitMessage 0] } := by
  simp [PostQuitMessage, stopMessage]

theorem batch_Stop (env : Env) (self : RunLoop) (w : World) :
    batch env (RunLoop.Stop self w).2 0 = w.queue ++ [stopMessage] ++ env.arrivals w.waits := by
  simp [batch, RunLoop.Stop, PostQuitMessage_zero]

theorem any_isQuit_Stop (env : Env) (self : RunLoop) (w : World) :
    (batch env (RunLoop.Stop self w).2 0).any isQuit = true := by
  rw [batch_Stop]
  simp [List.any_append, isQuit, stopMessage]

theorem beforeQuit_append_quit (q rest : List MSG) (m : MSG) (hq : q.any isQuit = false)
    (hm : isQuit m = true) : beforeQuit (q ++ m :: rest) = q := by
  induction q with
  | nil => simp [beforeQuit, hm]
  | cons a q ih =>
    simp only [List.any_cons, Bool.or_eq_false_iff] at hq
    have := ih hq.2
    simp only [beforeQuit] at this
    simp [beforeQuit, hq.1, this]

theorem wrap_int64_eq (x : Int) (h1 : -9223372036854775808 ≤ x)
    (h2 : x < 9223372036854775808) : wrap_int64 x = x := by
  unfold wrap_int64
  omega

theorem wait_duration_nonneg (next now : Int) : 0 ≤ wait_duration next now := by
  unfold wait_duration std_max
  split <;> omega

theorem wait_duration_eq_max (next now : Int) (h1 : 0 ≤ next) (h2 : next < 9223372036854775808)
    (h3 : 0 ≤ now) (h4 : now < 9223372036854775808) :
    wait_duration next now = max 0 (next - now) := by
  unfold wait_duration std_max
  rw [wrap_int64_eq _ (by omega) (by omega)]
  split <;> omega

theorem wait_timeout_eq (d : Int) (hd : 0 ≤ d) :
    wait_timeout d = d.toNat / 1000000 % 4294967296 := by
  unfold wait_timeout DWORD_cast
  rw [Int.tdiv_eq_ediv hd (by decide)]
  omega

/-! ## The claims -/

/-- C1. In every iteration of `Run`, whatever callbacks are registered, the
iteration never fails and what it logs is: the clock reading and the wait, then
the drain of the batch, then the calls of every callback of `task_runners_`.  No
callback is invoked before the drain has finished; after it the callbacks
invoked are exactly the entries of `task_runners_`, each once, in registration
order, and the engines called are the non-null pointers they captured, in that
order.  A drain that finds nothing pending is the single `PeekMessage` that
returns nothing, and the callbacks follow it all the same.  Over a whole run of
`n` iterations the callbacks invoked are `n` copies of `task_runners_`. -/
theorem C1_tasks_once_per_iteration (env : Env) (self : RunLoop) (next : Int) (w : World) :
    (∃ (keep : Bool) (w1 : World),
      RunLoop.iteration env self next w = Except.ok (keep, w1) ∧
      w1.trace = w.trace ++
        ([Event.now (env.clock w.reads),
          Event.MsgWaitForMultipleObjects
            (wait_timeout (wait_duration next (env.clock w.reads)))] ++
          drainEvents (batch env w 0)) ++
        self.task_runners_.flatMap invoked) ∧
    invocations
      ([Event.now (env.clock w.reads),
        Event.MsgWaitForMultipleObjects
          (wait_timeout (wait_duration next (env.clock w.reads)))] ++
        drainEvents (batch env w 0)) = [] ∧
    invocations (self.task_runners_.flatMap invoked) = self.task_runners_ ∧
    engineCalls (self.task_runners_.flatMap invoked) =
      ((self.task_runners_.map fun t => t.flutter_instance).filter fun p => decide (p ≠ 0)) ∧
    drainEvents [] = [Event.PeekMessage none] ∧
    (∀ fuel : Nat, ∃ (n : Nat) (r : RunLoop.Outcome),
      RunLoop.Run env fuel self w = Except.ok r ∧
      r.world.waits = w.waits + n ∧
      r.world.trace = w.trace ++ runEvents env self w n ∧
      invocations (runEvents env self w n) =
        (List.replicate n self.task_runners_).flatten) := by
  refine ⟨⟨_, _, iteration_eq env self next w, ?_⟩, ?_, invocations_invoked _,
    engineCalls_invoked _, rfl, ?_⟩
  · simp [iterationEvents, List.append_assoc]
  · have h := invocations_drainEvents (batch env w 0)
    unfold invocations at h ⊢
    simp [List.filterMap_append, h]
  · intro fuel
    obtain ⟨n, ret, q, _, _, h⟩ := Run_total env self w fuel
    exact ⟨n, _, h, rfl, rfl, invocations_runEvents env self w n⟩

/-- C2. When the drain of an iteration meets a quit message, that iteration
still ends normally: after the drain every callback of `task_runners_` is
invoked once, in registration order, and the iteration leaves `keep_running`
cleared.  The loop then exits: whatever number of further iterations is allowed,
the loop entered in `w` makes this one iteration only (a single wait) and ends
in the state this iteration produced. -/
theorem C2_quit_iteration_runs_tasks_then_returns (env : Env) (self : RunLoop) (next : Int)
    (w : World) (n : Nat) (hq : (batch env w 0).any isQuit = true) :
    ∃ w1 : World,
      RunLoop.iteration env self next w = Except.ok (false, w1) ∧
      w1.trace = w.trace ++
        ([Event.now (env.clock w.reads),
          Event.MsgWaitForMultipleObjects
            (wait_timeout (wait_duration next (env.clock w.reads)))] ++
          drainEvents (batch env w 0)) ++
        self.task_runners_.flatMap invoked ∧
      (∃ m : MSG, (drainEvents (batch env w 0)).getLast? = some (Event.PeekMessage (some m)) ∧
        m.message = WM_QUIT) ∧
      invocations (self.task_runners_.flatMap invoked) = self.task_runners_ ∧
      w1.waits = w.waits + 1 ∧
      RunLoop.whileLoop env self next (n + 1) w = Except.ok (false, w1) := by
  refine ⟨World.mk (afterQuit (batch env w 0)) (w.reads + 1) (w.waits + 1)
    (w.trace ++ iterationEvents self next (env.clock w.reads) (batch env w 0)),
    ?_, ?_, ?_, invocations_invoked _, ?_, ?_⟩
  · rw [iteration_eq, hq]; rfl
  · simp [iterationEvents, List.append_assoc]
  · obtain ⟨m, hm, hmq⟩ := List.any_eq_true.mp hq
    have hsome : ((batch env w 0).find? isQuit).isSome = true := by
      rw [List.find?_isSome]
      exact ⟨m, hm, hmq⟩
    obtain ⟨m1, hm1⟩ := Option.isSome_iff_exists.mp hsome
    refine ⟨m1, by simp [drainEvents, hm1], ?_⟩
    have := List.find?_some hm1
    simpa [isQuit] using this
  · rfl
  · rw [RunLoop.whileLoop, iteration_eq, hq]; rfl

/-- C2 at a concrete input: a paint message, a quit message and another paint
message are queued. -/
theorem C2_witness :
    (batch quietEnv
      { queue := [paintMessage, stopMessage, paintMessage], reads := 1, waits := 0, trace := [] }
      0).any isQuit = true ∧
    ∃ w1 : World,
      RunLoop.whileLoop quietEnv exampleLoop 0 3
        { queue := [paintMessage, stopMessage, paintMessage], reads := 1, waits := 0,
          trace := [] } = Except.ok (false, w1) ∧
      w1.waits = 1 :=
  ⟨by decide,
    match C2_quit_iteration_runs_tasks_then_returns quietEnv exampleLoop 0
      { queue := [paintMessage, stopMessage, paintMessage], reads := 1, waits := 0, trace := [] }
      2 (by decide) with
    | ⟨w1, _, _, _, _, hw, hl⟩ => ⟨w1, hl, hw⟩⟩

/-- C3. One drain, whatever batch `w.queue` it finds: the messages before the
first quit message are each removed, translated and dispatched, once and in
queue order; then a last `PeekMessage` either removes the quit message, which is
neither translated nor dispatched and clears `keep_running`, or finds nothing.
The messages after the quit message stay in the queue, untouched.  A batch
without a quit message is handled whole, the queue ends empty and `keep_running`
keeps its value. -/
theorem C3_drain_batch (L : Locals) (w : World) :
    drain L w =
      ({ keep_running := L.keep_running && !w.queue.any isQuit,
         has_messages := !w.queue.isEmpty },
       { w with
         queue := afterQuit w.queue,
         trace := w.trace ++
           ((beforeQuit w.queue).flatMap handled ++
             [Event.PeekMessage (w.queue.find? isQuit)]) }) ∧
    w.queue = beforeQuit w.queue ++ (w.queue.find? isQuit).toList ++ afterQuit w.queue ∧
    (∀ m ∈ beforeQuit w.queue, m.message ≠ WM_QUIT) ∧
    (∀ m ∈ w.queue.find? isQuit, m.message = WM_QUIT) ∧
    removed (drainEvents w.queue) = beforeQuit w.queue ++ (w.queue.find? isQuit).toList ∧
    translated (drainEvents w.queue) = beforeQuit w.queue ∧
    dispatched (drainEvents w.queue) = beforeQuit w.queue ∧
    (w.queue.any isQuit = false →
      beforeQuit w.queue = w.queue ∧ w.queue.find? isQuit = none ∧ afterQuit w.queue = [] ∧
      (drain L w).1.keep_running = L.keep_running) := by
  refine ⟨drain_eq L w, batch_split _, ?_, ?_, removed_drainEvents _, translated_drainEvents _,
    dispatched_drainEvents _, ?_⟩
  · intro m hm
    have := List.mem_takeWhile_imp hm
    simpa [isQuit] using this
  · intro m hm
    have := List.find?_some (Option.mem_def.mp hm)
    simpa [isQuit] using this
  · intro h
    refine ⟨beforeQuit_eq_self h, find_quit_eq_none h, afterQuit_eq_nil h, ?_⟩
    rw [drain_eq, h]
    simp

/-- C4. Let batch `k` (counted from `0`) be the first to hold a quit message.
Then `Run` returns at the end of iteration `k`, that is after exactly `k + 1`
iterations, as soon as that many are allowed; within any smaller number of
iterations it has not returned and has made all of them.  Whatever the outside
delivers and for every number of iterations allowed, `Run` has returned exactly
when one of the batches drained so far held a quit message.  An iteration whose
batch holds none leaves `keep_running` set and the loop goes on with the next
one. -/
theorem C4_run_returns_exactly_at_first_quit (env : Env) (self : RunLoop) (w : World) (k : Nat)
    (h : ∀ i, i < k → (batch env w i).any isQuit = false)
    (hk : (batch env w k).any isQuit = true) :
    (∀ fuel, k < fuel → ∃ r : RunLoop.Outcome,
      RunLoop.Run env fuel self w = Except.ok r ∧ r.returned = true ∧
      r.world.waits = w.waits + (k + 1) ∧
      r.world.trace = w.trace ++ runEvents env self w (k + 1) ∧
      (waitTimeouts (runEvents env self w (k + 1))).length = k + 1) ∧
    (∀ fuel, fuel ≤ k → ∃ r : RunLoop.Outcome,
      RunLoop.Run env fuel self w = Except.ok r ∧ r.returned = false ∧
      r.world.waits = w.waits + fuel ∧
      r.world.trace = w.trace ++ runEvents env self w fuel) ∧
    (∀ (e : Env) (v : World) (fuel : Nat), ∃ r : RunLoop.Outcome,
      RunLoop.Run e fuel self v = Except.ok r ∧
      (r.returned = true ↔ ∃ i, i < fuel ∧ (batch e v i).any isQuit = true)) ∧
    (∀ (e : Env) (next : Int) (v : World) (n : Nat), (batch e v 0).any isQuit = false →
      ∃ v1 : World, RunLoop.iteration e self next v = Except.ok (true, v1) ∧
        RunLoop.whileLoop e self next (n + 1) v = RunLoop.whileLoop e self next n v1) := by
  refine ⟨?_, ?_, fun e v fuel => Run_returned_iff e self v fuel, ?_⟩
  · intro fuel hf
    refine ⟨_, Run_returns env self w k fuel hf h hk, rfl, rfl, rfl, ?_⟩
    simp [waitTimeouts_runEvents]
  · intro fuel hf
    exact ⟨_, Run_running env self w fuel (fun i hi => h i (Nat.lt_of_lt_of_le hi hf)),
      rfl, rfl, rfl⟩
  · intro e next v n hv
    refine ⟨World.mk (afterQuit (batch e v 0)) (v.reads + 1) (v.waits + 1)
      (v.trace ++ iterationEvents self next (e.clock v.reads) (batch e v 0)), ?_, ?_⟩
    · rw [iteration_eq, hv]; rfl
    · rw [RunLoop.whileLoop, iteration_eq, hv]; rfl

/-- C4 at a concrete input: the third batch is the first with a quit message and
`Run` returns after three iterations. -/
theorem C4_witness :
    (∀ i, i < 2 → (batch busyEnv emptyWorld i).any isQuit = false) ∧
    (batch busyEnv emptyWorld 2).any isQuit = true ∧
    ∃ r : RunLoop.Outcome,
      RunLoop.Run busyEnv 10 exampleLoop emptyWorld = Except.ok r ∧ r.returned = true ∧
      r.world.waits = 3 :=
  ⟨by decide, by decide,
    match (C4_run_returns_exactly_at_first_quit busyEnv exampleLoop emptyWorld 2
      (by decide) (by decide)).1 10 (by decide) with
    | ⟨r, h, hr, hw, _, _⟩ => ⟨r, h, hr, hw⟩⟩

/-- C5. The callback that `RegisterFlutterInstance(p)` appends captures `p`.
Invoked, it never fails.  With `p` non-null it makes exactly one call, the
engine's `ProcessMessages`, and nothing else; with `p` null it returns the state
it was given, unchanged, having made no call, where the unguarded member call
through the null pointer would have failed. -/
theorem C5_registered_callback (self : RunLoop) (p : Nat) (w : World) :
    (RunLoop.RegisterFlutterInstance self p).task_runners_.getLast? =
      some { flutter_instance := p } ∧
    TaskRunner.call { flutter_instance := p } w =
      Except.ok (if p = 0 then w else w.log (Event.ProcessMessages p)) ∧
    engineCalls (w.log (Event.ProcessMessages p)).trace = engineCalls w.trace ++ [p] ∧
    TaskRunner.call { flutter_instance := 0 } w = Except.ok w ∧
    ProcessMessages 0 w = Except.error Fault.nullDereference := by
  refine ⟨by simp [RunLoop.RegisterFlutterInstance], ?_, ?_, by simp [TaskRunner.call],
    by simp [ProcessMessages]⟩
  · by_cases hp : p = 0 <;> simp [TaskRunner.call, ProcessMessages, hp]
  · simp [engineCalls, World.log, List.filterMap_append]

/-- C6, the claim as written fails: a quit message with exit code `7` is queued
when `Stop` is called.  `Run` then returns after one iteration whose drain
removed that earlier message only; the message `Stop` posted was not observed
and is still in the queue. -/
theorem C6_counterexample :
    ∃ r : RunLoop.Outcome,
      RunLoop.Run quietEnv 3 exampleLoop
        (RunLoop.Stop exampleLoop
          { queue := [foreignQuit], reads := 0, waits := 0, trace := [] }).2 = Except.ok r ∧
      r.returned = true ∧
      r.world.waits = 1 ∧
      removed r.world.trace = [foreignQuit] ∧
      stopMessage ∉ removed r.world.trace ∧
      r.world.queue = [stopMessage] :=
  ⟨_, rfl, rfl, rfl, by decide, by decide, rfl⟩

/-- C6, as the code has it.  `Stop` posts one quit message with exit code `0`
behind what is queued, logs that call and changes nothing else; the `RunLoop`
object is as before.  Whatever is queued and whatever callbacks are registered,
the next iteration entered on that queue is the last: its drain ends on a quit
message and the loop exits after that iteration, its callbacks invoked; `Run`
started on that queue returns after one iteration.  The quit message the drain
ends on is the first one queued: the message `Stop` posted when no quit message
was queued before it, in which case everything queued before is handled first,
and otherwise the earlier quit message. -/
theorem C6_stop_ends_next_iteration (env : Env) (self : RunLoop) (w : World) (next : Int)
    (n : Nat) :
    RunLoop.Stop self w =
      (self, { w with queue := w.queue ++ [stopMessage],
                      trace := w.trace ++ [Event.PostQuitMessage 0] }) ∧
    (∃ w1 : World,
      RunLoop.whileLoop env self next (n + 1) (RunLoop.Stop self w).2 = Except.ok (false, w1) ∧
      w1.waits = w.waits + 1 ∧
      w1.trace = w.trace ++ [Event.PostQuitMessage 0] ++
        iterationEvents self next (env.clock w.reads)
          (w.queue ++ [stopMessage] ++ env.arrivals w.waits)) ∧
    (∃ r : RunLoop.Outcome,
      RunLoop.Run env (n + 1) self (RunLoop.Stop self w).2 = Except.ok r ∧
      r.returned = true ∧ r.world.waits = w.waits + 1 ∧ r.self = self) ∧
    (drainEvents (w.queue ++ [stopMessage] ++ env.arrivals w.waits)).getLast? =
      some (Event.PeekMessage (some ((w.queue.find? isQuit).getD stopMessage))) ∧
    (w.queue.any isQuit = false →
      removed (drainEvents (w.queue ++ [stopMessage] ++ env.arrivals w.waits)) =
        w.queue ++ [stopMessage] ∧
      dispatched (drainEvents (w.queue ++ [stopMessage] ++ env.arrivals w.waits)) =
        w.queue) := by
  have hfind : (w.queue ++ [stopMessage] ++ env.arrivals w.waits).find? isQuit =
      some ((w.queue.find? isQuit).getD stopMessage) := by
    cases hq : w.queue.find? isQuit <;>
      simp [List.find?_append, hq, isQuit, stopMessage]
  refine ⟨by simp [RunLoop.Stop, PostQuitMessage_zero], ?_, ?_, ?_, ?_⟩
  · have h := whileLoop_returns env self next 0 (n + 1) (RunLoop.Stop self w).2
      (Nat.succ_pos n) (fun i hi => absurd hi (Nat.not_lt_zero i)) (any_isQuit_Stop env self w)
    refine ⟨_, h, ?_, ?_⟩
    · simp [RunLoop.Stop, PostQuitMessage_zero]
    · rw [loopEvents_one, batch_Stop]
      simp [RunLoop.Stop, PostQuitMessage_zero]
  · have h := Run_returns env self (RunLoop.Stop self w).2 0 (n + 1)
      (Nat.succ_pos n) (fun i hi => absurd hi (Nat.not_lt_zero i)) (any_isQuit_Stop env self w)
    refine ⟨_, h, rfl, ?_, rfl⟩
    simp [RunLoop.Stop, PostQuitMessage_zero]
  · rw [drainEvents, hfind]
    simp
  · intro hq
    have hb : beforeQuit (w.queue ++ [stopMessage] ++ env.arrivals w.waits) = w.queue := by
      rw [List.append_assoc]
      exact beforeQuit_append_quit _ _ _ hq rfl
    rw [removed_drainEvents, dispatched_drainEvents, hb, hfind, find_quit_eq_none hq]
    exact ⟨rfl, rfl⟩

/-- C6 at a concrete input: nothing is queued when `Stop` is called before
`Run`, so the drain of the first iteration ends on the message `Stop` posted. -/
theorem C6_witness :
    emptyWorld.queue.any isQuit = false ∧
    removed (drainEvents (emptyWorld.queue ++ [stopMessage] ++ quietEnv.arrivals emptyWorld.waits))
      = emptyWorld.queue ++ [stopMessage] :=
  ⟨by decide, ((C6_stop_ends_next_iteration quietEnv exampleLoop emptyWorld 0 0).2.2.2.2
    (by decide)).1⟩

/-- C7. `RegisterFlutterInstance(p)`, for any `p` (null, new or registered
already), makes `task_runners_` one entry longer: the new callback comes last
and the entries present before keep their values and positions.  `Run`, for any
number of iterations, and `Stop` leave `task_runners_` as it was. -/
theorem C7_task_runners_append_only (self : RunLoop) (p : Nat) (env : Env) (fuel : Nat)
    (w : World) :
    (RunLoop.RegisterFlutterInstance self p).task_runners_ =
      self.task_runners_ ++ [{ flutter_instance := p }] ∧
    (RunLoop.RegisterFlutterInstance self p).task_runners_.length =
      self.task_runners_.length + 1 ∧
    (RunLoop.RegisterFlutterInstance self p).task_runners_.getLast? =
      some { flutter_instance := p } ∧
    (RunLoop.RegisterFlutterInstance self p).task_runners_.take self.task_runners_.length =
      self.task_runners_ ∧
    (∀ i, i < self.task_runners_.length →
      (RunLoop.RegisterFlutterInstance self p).task_runners_[i]? = self.task_runners_[i]?) ∧
    (∃ r : RunLoop.Outcome, RunLoop.Run env fuel self w = Except.ok r ∧
      r.self.task_runners_ = self.task_runners_) ∧
    (RunLoop.Stop self w).1.task_runners_ = self.task_runners_ := by
  refine ⟨rfl, by simp [RunLoop.RegisterFlutterInstance],
    by simp [RunLoop.RegisterFlutterInstance], by simp [RunLoop.RegisterFlutterInstance],
    ?_, ?_, rfl⟩
  · intro i hi
    simp [RunLoop.RegisterFlutterInstance, List.getElem?_append_left hi]
  · obtain ⟨n, ret, q, _, _, h⟩ := Run_total env self w fuel
    exact ⟨_, h, rfl⟩

/-- C8. For every next-event time and every clock reading that the steady clock
can give, that is for non-negative signed 64-bit counts of nanoseconds, the wait
duration computed is `max 0 (next - now)`: it is never negative, `0` when
`now ≥ next` and `next - now` otherwise.  The timeout handed to the wait is that
duration divided by `1000000` with truncation, reduced modulo `2^32`; and it is
the timeout of the one wait each iteration makes.  That the duration is never
negative holds for every pair of integers. -/
theorem C8_wait_duration_and_timeout (next now : Int) (env : Env) (self : RunLoop)
    (w : World) (hnext : 0 ≤ next ∧ next < 9223372036854775808)
    (hnow : 0 ≤ now ∧ now < 9223372036854775808) :
    wait_duration next now = max 0 (next - now) ∧
    0 ≤ wait_duration next now ∧
    wait_duration next now = (if now ≥ next then 0 else next - now) ∧
    wait_timeout (wait_duration next now) =
      ((Int.tdiv (max 0 (next - now)) 1000000) % 4294967296).toNat ∧
    wait_timeout (wait_duration next now) =
      (max 0 (next - now)).toNat / 1000000 % 4294967296 ∧
    (∀ a b : Int, 0 ≤ wait_duration a b) ∧
    (∃ (keep : Bool) (w1 : World) (evs : List Event),
      RunLoop.iteration env self next w = Except.ok (keep, w1) ∧
      w1.trace = w.trace ++ evs ∧
      waitTimeouts evs = [wait_timeout (wait_duration next (env.clock w.reads))]) := by
  have hmax := wait_duration_eq_max next now hnext.1 hnext.2 hnow.1 hnow.2
  refine ⟨hmax, ?_, ?_, ?_, ?_, wait_duration_nonneg, ?_⟩
  · rw [hmax]; exact le_max_left _ _
  · rw [hmax]; split <;> omega
  · rw [hmax]; rfl
  · rw [hmax]; exact wait_timeout_eq _ (le_max_left _ _)
  · exact ⟨_, _, _, iteration_eq env self next w, rfl, waitTimeouts_iterationEvents _ _ _ _⟩

/-- C8 at concrete inputs: three milliseconds remain; and with the largest
reading as next-event time the timeout is the quotient reduced modulo `2^32`. -/
theorem C8_witness :
    ((0 : Int) ≤ 5000000 ∧ (5000000 : Int) < 9223372036854775808) ∧
    ((0 : Int) ≤ 2000000 ∧ (2000000 : Int) < 9223372036854775808) ∧
    wait_duration 5000000 2000000 = 3000000 ∧
    wait_timeout (wait_duration 5000000 2000000) = 3 ∧
    wait_timeout (wait_duration 9223372036854775807 0) = 2077252342 :=
  ⟨by decide, by decide,
    (C8_wait_duration_and_timeout 5000000 2000000 quietEnv exampleLoop emptyWorld
      (by decide) (by decide)).1.trans (by decide),
    (C8_wait_duration_and_timeout 5000000 2000000 quietEnv exampleLoop emptyWorld
      (by decide) (by decide)).2.2.2.2.1.trans (by decide),
    (C8_wait_duration_and_timeout 9223372036854775807 0 quietEnv exampleLoop emptyWorld
      (by decide) (by decide)).2.2.2.2.1.trans (by decide)⟩

/-- C9. `SetQuitHandler(cb)` leaves `quit_handler_` equal to `cb`, whatever was
stored before, so that a second call overrides the first; `window_handle_`,
`child_content_` and `quit_on_close_` keep their values. -/
theorem C9_SetQuitHandler_replaces {F : Type} (self : Win32Window F) (a b : Option F) :
    (self.SetQuitHandler b).quit_handler_ = b ∧
    ((self.SetQuitHandler a).SetQuitHandler b).quit_handler_ = b ∧
    (self.SetQuitHandler a).SetQuitHandler b = self.SetQuitHandler b ∧
    (self.SetQuitHandler b).window_handle_ = self.window_handle_ ∧
    (self.SetQuitHandler b).child_content_ = self.child_content_ ∧
    (self.SetQuitHandler b).quit_on_close_ = self.quit_on_close_ := by
  exact ⟨rfl, rfl, rfl, rfl, rfl, rfl⟩

/-- C10. With a steady clock, one whose readings are non-negative signed 64-bit
counts and never go back, every wait of `Run` has timeout `0`: the next-event
time is the reading taken before the loop, every iteration reads the clock
later, so the wait duration is `0` each time.  This holds for the iterations of
a run that returns and for those of a run still going when the iterations
allowed are used up. -/
theorem C10_zero_wait_every_iteration (env : Env) (self : RunLoop) (w : World) (fuel : Nat)
    (hmono : ∀ i j : Nat, i ≤ j → env.clock i ≤ env.clock j)
    (hrange : ∀ k : Nat, 0 ≤ env.clock k ∧ env.clock k < 9223372036854775808) :
    ∃ (n : Nat) (r : RunLoop.Outcome),
      RunLoop.Run env fuel self w = Except.ok r ∧
      (r.returned = false → n = fuel) ∧
      r.world.waits = w.waits + n ∧
      r.world.trace = w.trace ++ runEvents env self w n ∧
      waitTimeouts (runEvents env self w n) = List.replicate n 0 ∧
      ∀ i : Nat, wait_duration (env.clock w.reads) (env.clock (w.reads + 1 + i)) = 0 := by
  have hz : ∀ i : Nat, wait_duration (env.clock w.reads) (env.clock (w.reads + 1 + i)) = 0 := by
    intro i
    have := hmono w.reads (w.reads + 1 + i) (by omega)
    have h1 := hrange w.reads
    have h2 := hrange (w.reads + 1 + i)
    rw [wait_duration_eq_max _ _ h1.1 h1.2 h2.1 h2.2]
    omega
  obtain ⟨n, ret, q, _, hret, h⟩ := Run_total env self w fuel
  refine ⟨n, _, h, hret, rfl, rfl, ?_, hz⟩
  rw [waitTimeouts_runEvents]
  simp only [hz]
  have : wait_timeout 0 = 0 := by decide
  simp [this]

/-- C10 at a concrete input: a clock that advances by a microsecond a reading
for its first second. -/
theorem C10_witness :
    (∀ i j : Nat, i ≤ j → busyEnv.clock i ≤ busyEnv.clock j) ∧
    (∀ k : Nat, 0 ≤ busyEnv.clock k ∧ busyEnv.clock k < 9223372036854775808) ∧
    ∃ (n : Nat) (r : RunLoop.Outcome),
      RunLoop.Run busyEnv 10 exampleLoop emptyWorld = Except.ok r ∧
      waitTimeouts (runEvents busyEnv exampleLoop emptyWorld n) = List.replicate n 0 :=
  ⟨fun i j h => by
      show min ((1000 : Int) * i) 1000000000 ≤ min ((1000 : Int) * j) 1000000000
      omega,
    fun k => by
      show 0 ≤ min ((1000 : Int) * k) 1000000000 ∧
        min ((1000 : Int) * k) 1000000000 < 9223372036854775808
      omega,
    match C10_zero_wait_every_iteration busyEnv exampleLoop emptyWorld 10
      (fun i j h => by
        show min ((1000 : Int) * i) 1000000000 ≤ min ((1000 : Int) * j) 1000000000
        omega)
      (fun k => by
        show 0 ≤ min ((1000 : Int) * k) 1000000000 ∧
          min ((1000 : Int) * k) 1000000000 < 9223372036854775808
        omega) with
    | ⟨n, r, h, _, _, _, hz, _⟩ => ⟨n, r, h, hz⟩⟩
